import Mathlib

/-!
Shallow embedding of the natural-language-to-shell-command pipeline of the
simple-assistant repository:

* `src/utils/command_guard.py` — allow-list, `sanitize_command`,
  `detect_direct_command`;
* `src/services/ollama_translation.py` — `_maybe_fix_unclosed_quotes`,
  `translate_instruction_to_command` (the LLM reply is a parameter);
* `src/services/ollama_tools.py` — the `shell_agent` retry loop inside
  `call_tool_with_tldr` and `_format_tool_output` (the executor, translator
  and cheat-sheet collaborators are parameters).

Python strings are modelled as Lean `String` (a list of characters),
`Optional[str]` as `Option String`, and the truthiness test `if s:` on an
optional string as the explicit `pyTruthy`.  Functions that can fail with a
distinguishable reason return `Except`; the `Optional`-returning Python
function is recovered with `.toOption`.
-/

namespace SimpleAssistant

/-- Quote and escape characters, written via code points. -/
def dquoteC : Char := Char.ofNat 34

def squoteC : Char := Char.ofNat 39

def bquoteC : Char := Char.ofNat 96

def bslashC : Char := '\\'

/-- Characters removed by Python `str.strip()` (the ASCII whitespace range). -/
def isPySpace (c : Char) : Bool :=
  c = ' ' || c = '\t' || c = '\n' || c = '\x0d' || c = '\x0b' || c = '\x0c'

/-- Both-ends whitespace strip on character lists. -/
def stripChars (l : List Char) : List Char :=
  ((l.dropWhile isPySpace).reverse.dropWhile isPySpace).reverse

/-- Python `str.strip()`. -/
def pyStrip (s : String) : String := ⟨stripChars s.data⟩

/-- Python `str.lower()` (ASCII letters; commands are ASCII). -/
def asciiLower (s : String) : String := ⟨s.data.map Char.toLower⟩

/-- Python `str.upper()` (ASCII letters). -/
def asciiUpper (s : String) : String := ⟨s.data.map Char.toUpper⟩

/-- Python `s.startswith(pre)`. -/
def pyStartsWith (s pre : String) : Bool := pre.data.isPrefixOf s.data

/-- Python `s.endswith(suf)`. -/
def pyEndsWith (s suf : String) : Bool := suf.data.reverse.isPrefixOf s.data.reverse

/-- Occurrence scan used to model Python `sub in s`. -/
def substrAux (sub : List Char) : List Char → Bool
  | [] => sub.isEmpty
  | c :: cs => sub.isPrefixOf (c :: cs) || substrAux sub cs

/-- Python `sub in s` (substring containment). -/
def containsSubstr (s sub : String) : Bool := substrAux sub.data s.data

/-- Python truthiness of an `Optional[str]`: `None` and `""` are falsy. -/
def pyTruthy : Option String → Bool
  | none => false
  | some s => !s.isEmpty

/-- Python `s[1:-1]`. -/
def pyDropEnds (s : String) : String := ⟨(s.data.drop 1).dropLast⟩

/-! ### The `shlex.split` tokenizer (POSIX mode, `whitespace_split=True`) -/

/-- The two `ValueError`s `shlex` can raise while splitting. -/
inductive ShlexErr where
  | noClosingQuotation
  | noEscapeCharacter
deriving Repr, DecidableEq

/-- Tokenizer state: between tokens, inside a word, inside a quote pair, or
just after a backslash (remembering the state the backslash occurred in). -/
inductive SMode where
  | ws
  | word
  | inQuote (q : Char)
  | escaped (fromQuote : Option Char)
deriving Repr, DecidableEq

/-- `shlex` word-separating whitespace (`' \t\r\n'`). -/
def isShlexSpace (c : Char) : Bool :=
  c = ' ' || c = '\t' || c = '\x0d' || c = '\n'

/-- One-pass model of `shlex.split`'s scanner.  `tok` is the current token,
reversed; `quoted` records whether the current token saw a quote (so that
empty quoted tokens are emitted); `acc` holds finished tokens, reversed. -/
def shlexRun : List Char → SMode → List Char → Bool → List String →
    Except ShlexErr (List String)
  | [], .ws, _, _, acc => .ok acc.reverse
  | [], .word, tok, quoted, acc =>
      if tok.isEmpty && !quoted then .ok acc.reverse
      else .ok (String.mk tok.reverse :: acc).reverse
  | [], .inQuote _, _, _, _ => .error .noClosingQuotation
  | [], .escaped _, _, _, _ => .error .noEscapeCharacter
  | c :: rest, .ws, tok, quoted, acc =>
      if isShlexSpace c then shlexRun rest .ws tok quoted acc
      else if c = bslashC then shlexRun rest (.escaped none) tok quoted acc
      else if c = squoteC || c = dquoteC then shlexRun rest (.inQuote c) tok true acc
      else shlexRun rest .word (c :: tok) quoted acc
  | c :: rest, .word, tok, quoted, acc =>
      if isShlexSpace c then
        if tok.isEmpty && !quoted then shlexRun rest .ws [] false acc
        else shlexRun rest .ws [] false (String.mk tok.reverse :: acc)
      else if c = squoteC || c = dquoteC then shlexRun rest (.inQuote c) tok true acc
      else if c = bslashC then shlexRun rest (.escaped none) tok quoted acc
      else shlexRun rest .word (c :: tok) quoted acc
  | c :: rest, .inQuote q, tok, quoted, acc =>
      if c = q then shlexRun rest .word tok quoted acc
      else if q = dquoteC && c = bslashC then
        shlexRun rest (.escaped (some q)) tok quoted acc
      else shlexRun rest (.inQuote q) (c :: tok) quoted acc
  | c :: rest, .escaped fq, tok, quoted, acc =>
      match fq with
      | none => shlexRun rest .word (c :: tok) quoted acc
      | some q =>
          if c = q || c = bslashC then shlexRun rest (.inQuote q) (c :: tok) quoted acc
          else shlexRun rest (.inQuote q) (c :: bslashC :: tok) quoted acc

/-- `shlex.split(s)` as called by `sanitize_command`. -/
def shlexSplit (s : String) : Except ShlexErr (List String) :=
  shlexRun s.data .ws [] false []

/-! ### `src/utils/command_guard.py` -/

/-- `ALLOWED_COMMANDS`, lines 8-64 of src/utils/command_guard.py. -/
def ALLOWED_COMMANDS : List String :=
  ["awk", "bash", "bc", "cut", "ls", "pwd", "cat", "head", "tail", "grep",
   "find", "du", "df", "whoami", "ps", "top", "htop", "uptime", "free",
   "env", "printenv", "uname", "date", "sleep", "echo", "stat", "hyprctl",
   "./hypr_control.sh", "service", "rg", "systemctl", "journalctl", "docker",
   "git", "npm", "pip", "python", "node", "curl", "wget", "tar", "zip",
   "unzip", "kill", "lsblk", "mount", "umount", "ip", "hostname", "ss",
   "netstat", "ping", "playerctl", "[", "test"]

/-- `_DISALLOWED_TOKENS = {}`, line 66: the set is empty. -/
def DISALLOWED_TOKENS : List String := []

/-- The operator tokens recognised between command segments. -/
def operators : List String := ["|", "||", "&&", ";"]

/-- The operator characters whose embedded occurrence in a non-operator
token is rejected ("operator characters must be spaced out"). -/
def opChars : List String := ["|", "&", ";"]

/-- The binaries whose exact first argument `/` is blocked. -/
def rootGuardBins : List String := ["ls", "cat", "find", "du", "rm", "cp", "mv"]

/-- Rejection reasons of `sanitize_command` (the `_last_sanitize_error`
side channel, as a value). -/
inductive SanErr where
  | emptyCommand
  | sudoNotAllowed
  | disallowedConstruct
  | invalidQuoting (e : ShlexErr)
  | noTokens
  | operatorGlued (tok : String)
  | unknownBinary (tok : String)
  | dangerousRootArg (bin : String)
deriving Repr, DecidableEq

/-- The first token with a glued operator character, if any (the loop at
lines 116-122 returns on the first offender). -/
def gluedOperator (parts : List String) : Option String :=
  parts.find? (fun tok =>
    (opChars.any (fun op => containsSubstr tok op)) && !(operators.contains tok))

/-- The `need_binary` walk of lines 133-161: each operator resets the flag;
an expected binary must be allow-listed, and a guarded binary directly
followed by the exact argument `/` is rejected.  (The second `find /` guard
at lines 156-161 is unreachable: `find` is already in the first guard's set,
so it is not modelled separately.) -/
def scanParts : Bool → List String → Except SanErr Unit
  | _, [] => .ok ()
  | needBin, tok :: rest =>
    if operators.contains tok then scanParts true rest
    else if needBin then
      if !(ALLOWED_COMMANDS.contains tok) then .error (.unknownBinary tok)
      else
        match rest with
        | next :: _ =>
          if rootGuardBins.contains tok && next = "/" then
            .error (.dangerousRootArg tok)
          else scanParts false rest
        | [] => scanParts false rest
    else scanParts false rest

/-- Body of `sanitize_command` after the initial `strip()`. -/
def sanitizeStripped (command : String) : Except SanErr String :=
  if command.isEmpty then .error .emptyCommand
  else if pyStartsWith (asciiLower command) "sudo" then .error .sudoNotAllowed
  else if DISALLOWED_TOKENS.any (fun t => containsSubstr command t) then
    .error .disallowedConstruct
  else
    match shlexSplit command with
    | .error e => .error (.invalidQuoting e)
    | .ok parts =>
      if parts.isEmpty then .error .noTokens
      else
        match gluedOperator parts with
        | some tok => .error (.operatorGlued tok)
        | none =>
          match scanParts true parts with
          | .error e => .error e
          | .ok _ => .ok command

/-- `sanitize_command` with its rejection reason (lines 76-168). -/
def sanitizeCommandE (command : String) : Except SanErr String :=
  sanitizeStripped (pyStrip command)

/-- `sanitize_command` as the Python caller sees it: `Optional[str]`. -/
def sanitize_command (command : String) : Option String :=
  (sanitizeCommandE command).toOption

/-- `detect_direct_command`, lines 177-200. -/
def detect_direct_command (instruction : String) : Option String :=
  let text := pyStrip instruction
  if text.isEmpty then none
  else if text.data.contains '\n' then none
  else
    let direct := sanitize_command text
    if pyTruthy direct then direct
    else if pyStartsWith text (String.mk [bquoteC]) && pyEndsWith text (String.mk [bquoteC]) then
      sanitize_command (pyDropEnds text)
    else if pyStartsWith text (String.mk [dquoteC]) && pyEndsWith text (String.mk [dquoteC]) then
      sanitize_command (pyDropEnds text)
    else none

/-! ### `src/services/ollama_translation.py` -/

/-- `_maybe_fix_unclosed_quotes`, lines 37-54: append the closing character
for the first quote kind (double, single, backtick, in that order) whose
occurrence count in the command is odd. -/
def maybeFixUnclosedQuotes (command : String) : Option String :=
  let command := pyStrip command
  if command.isEmpty then none
  else if command.data.count dquoteC % 2 = 1 then some (command ++ String.mk [dquoteC])
  else if command.data.count squoteC % 2 = 1 then some (command ++ String.mk [squoteC])
  else if command.data.count bquoteC % 2 = 1 then some (command ++ String.mk [bquoteC])
  else none

/-- Python `s.split(":", 1)[1]`: everything after the first colon. -/
def afterFirstColon (s : String) : String :=
  ⟨(s.data.dropWhile (fun c => c != ':')).drop 1⟩

/-- Line-boundary characters of Python `str.splitlines` in the ASCII range. -/
def isLineBreak (c : Char) : Bool :=
  c = '\n' || c = '\x0d' || c = '\x0b' || c = '\x0c'

/-- Python `s.splitlines()[0]`. -/
def firstLine (s : String) : String :=
  ⟨s.data.takeWhile (fun c => !isLineBreak c)⟩

/-- Chars split on by `re.split(r"[;&|]", command, maxsplit=1)`. -/
def isSegBreak (c : Char) : Bool := c = ';' || c = '&' || c = '|'

/-- The leading segment before the first `;`, `&` or `|` (line 113-114). -/
def leadingSegment (s : String) : String :=
  ⟨s.data.takeWhile (fun c => !isSegBreak c)⟩

/-- Post-processing of the raw LLM reply inside
`translate_instruction_to_command` (lines 80-95): strip, drop a leading
`command:` label, keep only the first line, and map a literal `NONE` reply
(case-insensitive) to no command. -/
def postprocessReply (reply : String) : Option String :=
  let command := pyStrip reply
  let command :=
    if pyStartsWith (asciiLower command) "command:" then pyStrip (afterFirstColon command)
    else command
  let command :=
    if command.data.contains '\n' then pyStrip (firstLine command)
    else command
  if asciiUpper command = "NONE" then none else some command

/-- `translate_instruction_to_command`, lines 57-144, with the LLM chat
reply supplied as the `reply` argument (the network call itself is outside
the embedding); the result is what the Python function returns when the
model answers `reply`.  The Python code tests the sanitize failure reason
with `"No closing quotation" in sanitize_reason`; that reason string
contains this phrase exactly when the failure is the tokenizer's
unterminated-quote error, which is modelled as the error-value test (for
reasons of other shapes that happen to embed the phrase, the repair is a
no-op in both views because the appended quote cannot remove the earlier
offending token). -/
def translate_with_reply (instruction reply : String) : Option String :=
  let instruction := pyStrip instruction
  if instruction.isEmpty then none
  else
    let direct := detect_direct_command instruction
    if pyTruthy direct then direct
    else
      match postprocessReply reply with
      | none => none
      | some command =>
        let sanRes := sanitizeCommandE command
        if pyTruthy sanRes.toOption then sanRes.toOption
        else
          let isNoClosing : Bool :=
            match sanRes with
            | .error (.invalidQuoting .noClosingQuotation) => true
            | _ => false
          let quoteFix : Option String :=
            if isNoClosing then
              match maybeFixUnclosedQuotes command with
              | some fixed =>
                if fixed != command then
                  let fs := sanitize_command fixed
                  if pyTruthy fs then fs else none
                else none
              | none => none
            else none
          match quoteFix with
          | some r => some r
          | none =>
            let leading := pyStrip (leadingSegment command)
            if !leading.isEmpty && leading != command then
              let fb := sanitize_command leading
              if pyTruthy fb then fb else none
            else none

/-! ### `src/services/ollama_tools.py` — shell_agent retry loop, formatter -/

/-- The dict produced by the shell tool and threaded through the retry loop:
`{command, exit_code, stdout, stderr}`.  `exit_code` is `Option Int`
(`none` models Python `None`). -/
structure ShellResult where
  command : String
  exit_code : Option Int
  stdout : String
  stderr : String
deriving Repr, DecidableEq

/-- The failure-marker substrings of lines 165-177 (including the duplicated
entry, kept verbatim). -/
def errorMarkers : List String :=
  ["unknown option", "unrecognized option", "invalid option",
   "command not found", "permission denied", "no such file or directory",
   "cannot access", "not found", "no such file or directory", "failed",
   "error"]

/-- The failure classification of lines 153-185: non-`0`/non-`None` exit
code; or clean exit with a failure marker in (lower-cased, stripped)
stderr; or exit code `0` with empty stderr-checks and empty stripped
stdout. -/
def classifyHasError (r : ShellResult) : Bool :=
  let stderrS := pyStrip r.stderr
  let stdoutS := pyStrip r.stdout
  let h1 : Bool :=
    match r.exit_code with
    | some 0 => false
    | none => false
    | some _ => true
  let h2 : Bool :=
    if !h1 && !stderrS.isEmpty then
      errorMarkers.any (fun m => containsSubstr (asciiLower stderrS) m)
    else h1
  if !h2 && r.exit_code == some 0 && stdoutS.isEmpty then true else h2

/-- The refinement instruction synthesized at lines 201-204.  Note that the
`original_prompt` read at line 194 is `working_arguments["prompt"]`, i.e.
the prompt of the attempt that just failed, not the caller's original. -/
def refineInstruction (failedCmd prompt : String) : String :=
  "The command \x27" ++ failedCmd ++
    "\x27 failed. Suggest a simple alternative command for the same task: " ++ prompt

/-- The cheat-sheet-augmented instruction of lines 234-239. -/
def cheatInstruction (failedCmd primary cheatText prompt : String) : String :=
  "The command \x27" ++ failedCmd ++
    "\x27 failed. Here is a short usage reference for " ++ primary ++ ":\n" ++
    cheatText ++ "\nSuggest a simple alternative command that accomplishes: " ++
    prompt ++ "\nRespond ONLY with the new shell command."

/-- `shlex.split(original_prompt.strip())[0]` guarded by the `try` at lines
219-224 (`none` models both the empty-prompt case and an exception). -/
def primaryBinary (prompt : String) : Option String :=
  if (pyStrip prompt).isEmpty then none
  else
    match shlexSplit (pyStrip prompt) with
    | .ok (t :: _) => some t
    | _ => none

/-- The `while attempt < max_attempts` retry loop of lines 146-253.
`exec` is `tool_callable` (indexed by the 1-based attempt number and the
current prompt), `translator` is `translate_instruction_to_command`, and
`cheat` is `fetch_cheat` (`none` models an exception or non-string reply).
Returns `last_output` and the list of prompts the executor was invoked
with, in order.  All executor results are dicts in this model, so the
`isinstance` break at line 150 never fires. -/
def shellAgentLoop (exec : Nat → String → ShellResult)
    (translator : String → Option String) (cheat : String → Option String) :
    Nat → Nat → String → Option ShellResult → List String →
    Option ShellResult × List String
  | 0, _, _, last, trace => (last, trace.reverse)
  | fuel + 1, attempt, prompt, _, trace =>
    let a := attempt + 1
    let out := exec a prompt
    let trace := prompt :: trace
    if !classifyHasError out then (some out, trace.reverse)
    else
      let newCommand := translator (refineInstruction out.command prompt)
      if pyTruthy newCommand then
        shellAgentLoop exec translator cheat fuel a (newCommand.getD "") (some out) trace
      else
        match primaryBinary prompt with
        | some primary =>
          if primary.isEmpty then (some out, trace.reverse)
          else
            match cheat primary with
            | some cheatText =>
              if pyStartsWith cheatText "Error" then (some out, trace.reverse)
              else
                let nc2 := translator (cheatInstruction out.command primary cheatText prompt)
                if pyTruthy nc2 then
                  shellAgentLoop exec translator cheat fuel a (nc2.getD "") (some out) trace
                else (some out, trace.reverse)
            | none => (some out, trace.reverse)
        | none => (some out, trace.reverse)

/-- Helper of `_norm`: Python `str.split()` with no argument (split on
whitespace runs, dropping empties).  `cur` is the current word, reversed. -/
def pyWordsAux : List Char → List Char → List String
  | [], cur => if cur.isEmpty then [] else [String.mk cur.reverse]
  | c :: cs, cur =>
    if isPySpace c then
      if cur.isEmpty then pyWordsAux cs [] else String.mk cur.reverse :: pyWordsAux cs []
    else pyWordsAux cs (c :: cur)

/-- `_norm` at lines 267-268: `" ".join(cmd.strip().lower().split())`. -/
def normCmd (cmd : String) : String :=
  String.intercalate " " (pyWordsAux (asciiLower (pyStrip cmd)).data [])

/-- The stderr of the synthesized compliance-failure result (line 275). -/
def complianceStderr : String :=
  "LLM compliance check failed: Command does not match user intent."

/-- `max_attempts = 3`, line 142. -/
def MAX_ATTEMPTS : Nat := 3

/-- The whole `shell_agent` branch of `call_tool_with_tldr` (lines 141-277):
the retry loop followed by the LLM compliance check that may replace the
result with an `exit_code = -2` policy failure.  Returns the final
`raw_output` together with the executed-prompt trace. -/
def callShellAgent (exec : Nat → String → ShellResult)
    (translator : String → Option String) (cheat : String → Option String)
    (prompt0 : String) : Option ShellResult × List String :=
  let loopRes := shellAgentLoop exec translator cheat MAX_ATTEMPTS 0 prompt0 none []
  let last := loopRes.1
  let trace := loopRes.2
  let finalCommand : Option String := last.map (·.command)
  let complianceFail : Bool :=
    if pyTruthy finalCommand && !prompt0.isEmpty then
      match translator prompt0 with
      | some expected =>
        if !expected.isEmpty then !(normCmd (finalCommand.getD "") == normCmd expected)
        else false
      | none => false
    else false
  if complianceFail then
    (some { command := finalCommand.getD "", exit_code := some (-2), stdout := "",
            stderr := complianceStderr }, trace)
  else (last, trace)

/-- The truncation marker appended at line 378 (with its leading newline). -/
def truncationMarker : String := "\n... (output truncated)"

/-- Python `s[:n]`. -/
def pyTake (s : String) (n : Nat) : String := ⟨s.data.take n⟩

/-- The `shell_agent` dict branch of `_format_tool_output`, lines 371-379:
only `stdout` is length-capped; `command` and `stderr` are rendered as-is. -/
def formatShellAgentOutput (r : ShellResult) : String :=
  let stdout :=
    if r.stdout.length > 16000 then pyTake r.stdout 16000 ++ truncationMarker
    else r.stdout
  "Command: " ++ r.command ++ "\nOutput: " ++ stdout ++ "\nError: " ++ r.stderr

/-! ### Segment leaders: the spec's phrasing vs the token walk -/

/-- Just the allow-list constraint of the `need_binary` walk (the same
recursion as `scanParts` with the root-path guard removed). -/
def leadersOK : Bool → List String → Bool
  | _, [] => true
  | needBin, tok :: rest =>
    if operators.contains tok then leadersOK true rest
    else if needBin then ALLOWED_COMMANDS.contains tok && leadersOK false rest
    else leadersOK false rest

/-- The claim's phrasing of the gating rule, stated independently of the
walk: split the token list on the bare operator tokens. -/
def splitSegments : List String → List (List String)
  | [] => [[]]
  | tok :: rest =>
    if operators.contains tok then [] :: splitSegments rest
    else
      match splitSegments rest with
      | seg :: segs => (tok :: seg) :: segs
      | [] => [[tok]]

/-- A segment is fine when it is empty or its leading token is allow-listed. -/
def segHeadOK : List String → Bool
  | [] => true
  | tok :: _ => ALLOWED_COMMANDS.contains tok

/-- The claim's phrasing: every operator-separated segment's leading token
is a member of the allow-list. -/
def segLeadersAllowed (parts : List String) : Bool :=
  (splitSegments parts).all segHeadOK

/-- The scenario executor of C8: attempts 1-3 fail with exit code 1,
attempt 4 would succeed with non-empty stdout. -/
def execC8 : Nat → String → ShellResult := fun a p =>
  if 4 ≤ a then ⟨p, some 0, "attempt-4 stdout", ""⟩
  else ⟨p, some 1, "", "simulated error"⟩

/-- The scenario translator stub of C8: three distinct refined commands for
the three refinement instructions the loop can build, nothing otherwise. -/
def trC8 : String → Option String := fun s =>
  if s = refineInstruction "p0" "p0" then some "c1"
  else if s = refineInstruction "c1" "c1" then some "c2"
  else if s = refineInstruction "c2" "c2" then some "c3"
  else none

/-- The big 20000-character stream used in the formatter claims. -/
def bigStr : String := ⟨List.replicate 20000 'a'⟩

/-! ### Helper lemmas about stripping -/

lemma dropWhile_dropWhile (p : Char → Bool) (l : List Char) :
    (l.dropWhile p).dropWhile p = l.dropWhile p := by
  induction l with
  | nil => rfl
  | cons a l ih =>
    cases h : p a with
    | true => simp [List.dropWhile_cons, h, ih]
    | false => simp [List.dropWhile_cons, h]

lemma dropWhile_head_false {p : Char → Bool} {l r : List Char} {a : Char}
    (h : l.dropWhile p = a :: r) : p a = false := by
  induction l with
  | nil => simp [List.dropWhile] at h
  | cons b l ih =>
    rw [List.dropWhile_cons] at h
    cases hb : p b with
    | true => rw [hb] at h; simp at h; exact ih h
    | false =>
      rw [hb] at h
      simp at h
      rw [← h.1]
      exact hb

lemma stripChars_left_clean (l : List Char) :
    (stripChars l).dropWhile isPySpace = stripChars l := by
  unfold stripChars
  have hsuf : ((l.dropWhile isPySpace).reverse.dropWhile isPySpace) <:+
      (l.dropWhile isPySpace).reverse := List.dropWhile_suffix isPySpace
  obtain ⟨s, hs⟩ := hsuf
  cases hwr : ((l.dropWhile isPySpace).reverse.dropWhile isPySpace).reverse with
  | nil => rfl
  | cons a d =>
    have hu : l.dropWhile isPySpace = a :: (d ++ s.reverse) := by
      have h1 := congrArg List.reverse hs
      rw [List.reverse_append, List.reverse_reverse] at h1
      rw [hwr] at h1
      simpa using h1.symm
    rw [List.dropWhile_cons, dropWhile_head_false hu]
    simp

lemma stripChars_right_clean (l : List Char) :
    (stripChars l).reverse.dropWhile isPySpace = (stripChars l).reverse := by
  unfold stripChars
  rw [List.reverse_reverse]
  exact dropWhile_dropWhile _ _

lemma stripChars_idem (l : List Char) : stripChars (stripChars l) = stripChars l := by
  have h1 := stripChars_left_clean l
  have h2 := stripChars_right_clean l
  show (((stripChars l).dropWhile isPySpace).reverse.dropWhile isPySpace).reverse = stripChars l
  rw [h1, h2, List.reverse_reverse]

lemma pyStrip_idem (s : String) : pyStrip (pyStrip s) = pyStrip s := by
  show (⟨stripChars (stripChars s.data)⟩ : String) = ⟨stripChars s.data⟩
  rw [stripChars_idem]

lemma mem_of_mem_stripChars {a : Char} {l : List Char} (h : a ∈ stripChars l) :
    a ∈ l := by
  unfold stripChars at h
  rw [List.mem_reverse] at h
  have hsub1 : List.Sublist ((l.dropWhile isPySpace).reverse.dropWhile isPySpace)
      (l.dropWhile isPySpace).reverse := (List.dropWhile_suffix isPySpace).sublist
  have h2 := hsub1.subset h
  rw [List.mem_reverse] at h2
  have hsub2 : List.Sublist (l.dropWhile isPySpace) l :=
    (List.dropWhile_suffix isPySpace).sublist
  exact hsub2.subset h2

/-! ### Helper lemmas about `sanitize_command` -/

lemma sanitizeStripped_ok {c s : String} (h : sanitizeStripped c = .ok s) : s = c := by
  unfold sanitizeStripped at h
  repeat' split at h
  all_goals (cases h) <;> rfl

lemma sanitize_command_some {c s : String} (h : sanitize_command c = some s) :
    s = pyStrip c := by
  unfold sanitize_command sanitizeCommandE at h
  cases hE : sanitizeStripped (pyStrip c) with
  | error e => rw [hE] at h; simp [Except.toOption] at h
  | ok v =>
    rw [hE] at h
    simp [Except.toOption] at h
    rw [← h]
    exact sanitizeStripped_ok hE

lemma sanitize_command_restrip (c : String) :
    sanitize_command (pyStrip c) = sanitize_command c := by
  unfold sanitize_command sanitizeCommandE
  rw [pyStrip_idem]

lemma splitSegments_ne_nil (parts : List String) : splitSegments parts ≠ [] := by
  cases parts with
  | nil => simp [splitSegments]
  | cons tok rest =>
    unfold splitSegments
    cases h : operators.contains tok with
    | true => simp
    | false =>
      simp only [Bool.false_eq_true, if_false]
      cases hs : splitSegments rest <;> simp

lemma leadersOK_eq (parts : List String) :
    ∀ b : Bool, leadersOK b parts =
      if b then (splitSegments parts).all segHeadOK
      else ((splitSegments parts).drop 1).all segHeadOK := by
  induction parts with
  | nil => intro b; cases b <;> simp [leadersOK, splitSegments, segHeadOK]
  | cons tok rest ih =>
    intro b
    simp only [leadersOK, splitSegments]
    by_cases hop : tok ∈ operators
    · cases b <;> simp [hop, ih true, segHeadOK]
    · obtain ⟨seg, segs, hsp⟩ : ∃ seg segs, splitSegments rest = seg :: segs := by
        cases hs : splitSegments rest with
        | nil => exact absurd hs (splitSegments_ne_nil rest)
        | cons a c => exact ⟨a, c, rfl⟩
      cases b <;> simp [hop, hsp, ih false, segHeadOK]

lemma scanParts_ok_leadersOK (parts : List String) :
    ∀ b : Bool, scanParts b parts = .ok () → leadersOK b parts = true := by
  induction parts with
  | nil => intro b _; rfl
  | cons tok rest ih =>
    intro b h
    simp only [scanParts] at h
    simp only [leadersOK]
    by_cases hop : tok ∈ operators
    · simp [hop] at h ⊢
      exact ih true h
    · cases b with
      | false =>
        simp [hop] at h ⊢
        exact ih false h
      | true =>
        by_cases hal : tok ∈ ALLOWED_COMMANDS
        · cases rest with
          | nil =>
            simp [hop, hal] at h
            simp [hop, hal]
            exact ih false h
          | cons next rrest =>
            simp [hop, hal] at h ⊢
            split at h
            · cases h
            · exact ih false h
        · simp [hop, hal] at h

lemma sanitizeStripped_ok_leaders {c s : String} {ps : List String}
    (hok : shlexSplit c = .ok ps) (h : sanitizeStripped c = .ok s) :
    segLeadersAllowed ps = true := by
  unfold sanitizeStripped at h
  rw [hok] at h
  repeat' split at h
  all_goals try (cases h)
  rename_i xs parts hpeq hne xo hglue xe u hscan
  have hps : ps = parts := Except.ok.inj hpeq
  subst hps
  unfold segLeadersAllowed
  have hsc : scanParts true ps = .ok () := by rw [hscan]
  have hl := scanParts_ok_leadersOK ps true hsc
  rw [leadersOK_eq ps true] at hl
  simpa using hl

lemma sanitize_none_of_bad_leaders {c : String} {ps : List String}
    (hok : shlexSplit (pyStrip c) = .ok ps) (hbad : segLeadersAllowed ps = false) :
    sanitize_command c = none := by
  cases hres : sanitize_command c with
  | none => rfl
  | some s =>
    exfalso
    unfold sanitize_command sanitizeCommandE at hres
    cases hE : sanitizeStripped (pyStrip c) with
    | error e => rw [hE] at hres; simp [Except.toOption] at hres
    | ok v =>
      have := sanitizeStripped_ok_leaders hok hE
      rw [this] at hbad
      cases hbad

lemma sanitize_none_of_sudo {c : String}
    (h : pyStartsWith (asciiLower (pyStrip c)) "sudo" = true) :
    sanitize_command c = none := by
  unfold sanitize_command sanitizeCommandE sanitizeStripped
  by_cases hemp : (pyStrip c).isEmpty = true
  · rw [if_pos hemp]; rfl
  · rw [if_neg hemp, if_pos h]; rfl

/-! ### Claim C1 -/

/-- C1: allow-list gating.  Any command whose stripped text starts with
`sudo` in any letter case is rejected; and whenever the tokenized command
has an operator-separated segment whose leading token is not a member of
`ALLOWED_COMMANDS`, `sanitize_command` returns nothing. -/
theorem allowlist_gating :
    (∀ c : String, pyStartsWith (asciiLower (pyStrip c)) "sudo" = true →
        sanitize_command c = none) ∧
    (∀ (c : String) (ps : List String), shlexSplit (pyStrip c) = .ok ps →
        segLeadersAllowed ps = false → sanitize_command c = none) :=
  ⟨fun _ h => sanitize_none_of_sudo h,
   fun _ _ hok hbad => sanitize_none_of_bad_leaders hok hbad⟩

/-- Witness for C1 at concrete inputs: a mixed-case `sudo` command and a
command whose only segment leader is unknown. -/
theorem allowlist_gating_witness :
    sanitize_command "SuDo reboot" = none ∧ sanitize_command "evilcmd --flag" = none := by
  constructor
  · exact allowlist_gating.1 "SuDo reboot" (by decide)
  · exact allowlist_gating.2 "evilcmd --flag" ["evilcmd", "--flag"] rfl (by decide)

/-! ### Claim C2 -/

/-- C2: the sanitizer checks only segment-leading tokens, and the
disallowed-token set is empty, so `echo $(reboot)` — whose argument token
carries command substitution — is accepted and returned unchanged. -/
theorem argument_tokens_unchecked :
    sanitize_command "echo $(reboot)" = some "echo $(reboot)" ∧
      DISALLOWED_TOKENS = [] := ⟨by decide, rfl⟩

/-! ### Claim C3 -/

/-- C3 counterexample: `sanitize_command` accepts a command containing a
newline and returns it with the newline intact, so not every string it
returns is a single line. -/
theorem sanitize_multiline_counterexample :
    sanitize_command "echo a\necho b" = some "echo a\necho b" ∧
      '\n' ∈ ("echo a\necho b" : String).data := ⟨by decide, by decide⟩

/-- C3 amended: `sanitize_command` returns the trimmed input verbatim, so a
multi-line accepted input keeps its newlines; the single-line guarantee
holds one layer up: every string returned by `detect_direct_command`
contains no newline, because multi-line instructions are rejected before
sanitization. -/
theorem detect_direct_single_line (t s : String)
    (h : detect_direct_command t = some s) : ¬ '\n' ∈ s.data := by
  simp only [detect_direct_command] at h
  by_cases h1 : (pyStrip t).isEmpty = true
  · rw [if_pos h1] at h; cases h
  · rw [if_neg h1] at h
    by_cases h2 : (pyStrip t).data.contains '\n' = true
    · rw [if_pos h2] at h; cases h
    · rw [if_neg h2] at h
      have hnmem : ¬ '\n' ∈ (pyStrip t).data := by
        intro hm; exact h2 (List.elem_iff.mpr hm)
      by_cases h3 : pyTruthy (sanitize_command (pyStrip t)) = true
      · rw [if_pos h3] at h
        have hs := sanitize_command_some h
        intro hm
        rw [hs] at hm
        rw [pyStrip_idem] at hm
        exact hnmem hm
      · rw [if_neg h3] at h
        by_cases h4 : (pyStartsWith (pyStrip t) (String.mk [bquoteC]) &&
            pyEndsWith (pyStrip t) (String.mk [bquoteC])) = true
        · rw [if_pos h4] at h
          intro hm
          have hs := sanitize_command_some h
          rw [hs] at hm
          have hm2 := mem_of_mem_stripChars hm
          have hm3 := (List.dropLast_sublist _).subset hm2
          exact hnmem ((List.drop_sublist 1 _).subset hm3)
        · rw [if_neg h4] at h
          by_cases h5 : (pyStartsWith (pyStrip t) (String.mk [dquoteC]) &&
              pyEndsWith (pyStrip t) (String.mk [dquoteC])) = true
          · rw [if_pos h5] at h
            intro hm
            have hs := sanitize_command_some h
            rw [hs] at hm
            have hm2 := mem_of_mem_stripChars hm
            have hm3 := (List.dropLast_sublist _).subset hm2
            exact hnmem ((List.drop_sublist 1 _).subset hm3)
          · rw [if_neg h5] at h; cases h

/-- Witness for the amended C3 at a concrete input. -/
theorem detect_direct_single_line_witness :
    ¬ '\n' ∈ ("ls -lah" : String).data :=
  detect_direct_single_line "ls -lah" "ls -lah" (by decide)

/-! ### Claim C4 -/

/-- C4 counterexample: `rm` is NOT a member of the allow-list, so the
claim's membership conjunct fails; consequently even `rm` with a harmless
argument is rejected. -/
theorem rm_membership_counterexample :
    ALLOWED_COMMANDS.contains "rm" = false ∧
      sanitize_command "rm -rf /tmp/x" = none := ⟨by decide, by decide⟩

/-- C4 amended: `sudo` and `rm` are both absent from the allow-list, and
every command with a segment-leading `rm`, `cp` or `mv` is rejected
outright — regardless of its first argument — because these binaries are
not allow-listed (the explicit `rm / cp / mv /` first-argument guard at
line 152 is unreachable for them). -/
theorem allowlist_boundary_and_root_guard :
    ALLOWED_COMMANDS.contains "sudo" = false ∧
    ALLOWED_COMMANDS.contains "rm" = false ∧
    (∀ (c : String) (ps : List String) (b : String),
      shlexSplit (pyStrip c) = .ok ps → b ∈ ["rm", "cp", "mv"] →
      (splitSegments ps).any (fun seg => seg.head? == some b) = true →
      sanitize_command c = none) := by
  refine ⟨by decide, by decide, ?_⟩
  intro c ps b hok hb hseg
  apply sanitize_none_of_bad_leaders hok
  rw [List.any_eq_true] at hseg
  obtain ⟨seg, hmem, hhead⟩ := hseg
  have hbal : ALLOWED_COMMANDS.contains b = false := by
    simp only [List.mem_cons, List.not_mem_nil, or_false] at hb
    rcases hb with rfl | rfl | rfl <;> decide
  cases hseg2 : segLeadersAllowed ps with
  | false => rfl
  | true =>
    exfalso
    unfold segLeadersAllowed at hseg2
    rw [List.all_eq_true] at hseg2
    have hok2 := hseg2 seg hmem
    cases seg with
    | nil => simp at hhead
    | cons tk tl =>
      have ht : tk = b := by simpa using hhead
      rw [ht] at hok2
      simp only [segHeadOK] at hok2
      rw [hbal] at hok2
      cases hok2

/-- Witness for the amended C4: `rm /` and a `cp`-after-operator command
are both rejected. -/
theorem allowlist_boundary_witness :
    sanitize_command "rm /" = none ∧ sanitize_command "ls x && cp / y" = none := by
  constructor
  · exact allowlist_boundary_and_root_guard.2.2 "rm /" ["rm", "/"] "rm" rfl
      (by decide) (by decide)
  · exact allowlist_boundary_and_root_guard.2.2 "ls x && cp / y"
      ["ls", "x", "&&", "cp", "/", "y"] "cp" rfl (by decide) (by decide)

/-! ### Claim C5 -/

/-- C5 counterexample: the allow-listed command `ls -lah` wrapped in a
top-level single-quote pair is rejected by the detector — there is no
single-quote unwrap branch — refuting the claim that every allow-listed
command wrapped in a single-quote pair is unwrapped and accepted. -/
theorem single_quote_unwrap_counterexample :
    sanitize_command "ls -lah" = some "ls -lah" ∧
      detect_direct_command (String.mk [squoteC] ++ "ls -lah" ++ String.mk [squoteC]) =
        none := ⟨by decide, by decide⟩

/-- C5 amended: a backtick or double-quote pair around an allow-listed
command is unwrapped and accepted, but a single-quote pair is rejected, and
triple-backtick fenced code blocks are never unwrapped: with a language tag
line the text is multi-line and refused outright, and a single-line fence
leaves backtick-glued tokens that fail validation. -/
theorem quote_unwrapping_behavior :
    detect_direct_command (String.mk [bquoteC] ++ "ls -lah" ++ String.mk [bquoteC]) =
        some "ls -lah" ∧
    detect_direct_command "\"ls -lah\"" = some "ls -lah" ∧
    detect_direct_command (String.mk [squoteC] ++ "ls -lah" ++ String.mk [squoteC]) =
        none ∧
    detect_direct_command (String.mk [bquoteC, bquoteC, bquoteC] ++ "bash\nls -lah\n" ++
        String.mk [bquoteC, bquoteC, bquoteC]) = none ∧
    detect_direct_command (String.mk [bquoteC, bquoteC, bquoteC] ++ "ls -lah" ++
        String.mk [bquoteC, bquoteC, bquoteC]) = none :=
  ⟨by decide, by decide, by decide, by decide, by decide⟩

/-! ### Claim C6 -/

/-- C6: on success `sanitize_command` returns the stripped original command
string itself (not a re-serialization), and it is idempotent: sanitizing an
accepted result accepts it unchanged. -/
theorem sanitize_verbatim_idempotent (c s : String)
    (h : sanitize_command c = some s) :
    s = pyStrip c ∧ sanitize_command s = some s := by
  have hs := sanitize_command_some h
  subst hs
  exact ⟨rfl, by rw [sanitize_command_restrip]; exact h⟩

/-- Witness for C6 at a concrete accepted pipeline command. -/
theorem sanitize_verbatim_idempotent_witness :
    ("ls -lah | grep py" : String) = pyStrip "ls -lah | grep py" ∧
      sanitize_command "ls -lah | grep py" = some "ls -lah | grep py" :=
  sanitize_verbatim_idempotent "ls -lah | grep py" "ls -lah | grep py" (by decide)

/-! ### Claim C7 -/

/-- C7 counterexample: with a translator that always suggests the same
command `ls` and an executor that always fails, the orchestrator executes
the identical command three times in a row — the loop never compares the
translator's suggestion with the previous command, so "same command" does
not stop the retries. -/
theorem same_command_retry_counterexample :
    callShellAgent (fun _ p => ⟨p, some 1, "", "boom"⟩) (fun _ => some "ls")
        (fun _ => none) "ls" =
      (some ⟨"ls", some 1, "", "boom"⟩, ["ls", "ls", "ls"]) := by decide

/-- C7 amended: the stop rule that holds is the translator-returns-nothing
half: if the translator returns nothing (the cheat-sheet-assisted
retranslation then also returns nothing), the orchestrator stops after the
first classified failure and keeps that result; there is no
same-command-as-before stop. -/
theorem translator_none_stops (exec : Nat → String → ShellResult)
    (cheat : String → Option String) (p0 : String) :
    callShellAgent exec (fun _ => none) cheat p0 = (some (exec 1 p0), [p0]) := by
  have hloop : shellAgentLoop exec (fun _ => none) cheat 3 0 p0 none [] =
      (some (exec 1 p0), [p0]) := by
    show shellAgentLoop exec (fun _ => none) cheat (2 + 1) 0 p0 none [] = _
    simp only [shellAgentLoop, pyTruthy, Nat.zero_add]
    cases hc : classifyHasError (exec 1 p0) with
    | false => simp
    | true =>
      simp only [Bool.not_true, Bool.false_eq_true, if_false]
      cases hp : primaryBinary p0 with
      | none => simp
      | some primary =>
        by_cases hpe : primary.isEmpty = true
        · simp [hpe]
        · simp only [hpe, Bool.false_eq_true, if_false]
          cases hch : cheat primary with
          | none => simp
          | some cheatText =>
            by_cases hcs : pyStartsWith cheatText "Error" = true
            · simp [hcs]
            · simp [hcs]
  unfold callShellAgent MAX_ATTEMPTS
  rw [hloop]
  simp [pyTruthy]

/-- Witness for the amended C7 at a concrete executor and prompt. -/
theorem translator_none_stops_witness :
    callShellAgent (fun _ p => ⟨p, some 1, "", "boom"⟩) (fun _ => none)
        (fun _ => none) "pwd" = (some ⟨"pwd", some 1, "", "boom"⟩, ["pwd"]) :=
  translator_none_stops (fun _ p => ⟨p, some 1, "", "boom"⟩) (fun _ => none) "pwd"

/-! ### Claim C8 -/

/-- C8 counterexample: `max_attempts` is hard-coded to 3, so in the
claimed scenario the callable is invoked exactly three times (original
prompt, then the first two refined commands); the attempt-4 success is
never reached and the returned text does not contain its stdout. -/
theorem four_attempt_scenario_counterexample :
    callShellAgent execC8 trC8 (fun _ => none) "p0" =
      (some ⟨"c2", some 1, "", "simulated error"⟩, ["p0", "c1", "c2"]) ∧
    containsSubstr (formatShellAgentOutput ⟨"c2", some 1, "", "simulated error"⟩)
      "attempt-4 stdout" = false :=
  ⟨by decide, by decide⟩

/-- C8 amended: for every always-failing executor and every translator that
produces a fresh (nonempty) suggestion for each refinement instruction, the
orchestrator executes exactly three attempts — the original prompt and the
first two suggestions, in order — and the result is the attempt-3 output
(possibly replaced by the `exit_code = -2` compliance failure). -/
theorem max_three_attempts (exec : Nat → String → ShellResult)
    (tr : String → Option String) (cheat : String → Option String)
    (p0 c1 c2 c3 : String)
    (hfail : ∀ a p, classifyHasError (exec a p) = true)
    (h1 : tr (refineInstruction (exec 1 p0).command p0) = some c1) (hne1 : c1 ≠ "")
    (h2 : tr (refineInstruction (exec 2 c1).command c1) = some c2) (hne2 : c2 ≠ "")
    (h3 : tr (refineInstruction (exec 3 c2).command c2) = some c3) (hne3 : c3 ≠ "") :
    (callShellAgent exec tr cheat p0).2 = [p0, c1, c2] ∧
    ((callShellAgent exec tr cheat p0).1 = some (exec 3 c2) ∨
      (callShellAgent exec tr cheat p0).1 =
        some ⟨(exec 3 c2).command, some (-2), "", complianceStderr⟩) := by
  have e1 : c1.isEmpty = false := by
    cases he : c1.isEmpty with
    | false => rfl
    | true => exact absurd ((String.isEmpty_iff _).mp he) hne1
  have e2 : c2.isEmpty = false := by
    cases he : c2.isEmpty with
    | false => rfl
    | true => exact absurd ((String.isEmpty_iff _).mp he) hne2
  have e3 : c3.isEmpty = false := by
    cases he : c3.isEmpty with
    | false => rfl
    | true => exact absurd ((String.isEmpty_iff _).mp he) hne3
  have hloop : shellAgentLoop exec tr cheat 3 0 p0 none [] =
      (some (exec 3 c2), [p0, c1, c2]) := by
    show shellAgentLoop exec tr cheat (2 + 1) 0 p0 none [] = _
    simp only [shellAgentLoop, Nat.zero_add, hfail 1 p0, Bool.not_true,
      Bool.false_eq_true, if_false, h1, pyTruthy, e1, Bool.not_false, if_true,
      Option.getD_some]
    show shellAgentLoop exec tr cheat (1 + 1) 1 c1 (some (exec 1 p0)) [p0] = _
    simp only [shellAgentLoop, hfail 2 c1, Bool.not_true, Bool.false_eq_true,
      if_false, h2, pyTruthy, e2, Bool.not_false, if_true, Option.getD_some]
    show shellAgentLoop exec tr cheat (0 + 1) 2 c2 (some (exec 2 c1)) [c1, p0] = _
    simp only [shellAgentLoop, hfail 3 c2, Bool.not_true, Bool.false_eq_true,
      if_false, h3, pyTruthy, e3, Bool.not_false, if_true, Option.getD_some]
    rfl
  unfold callShellAgent MAX_ATTEMPTS
  rw [hloop]
  simp only []
  constructor
  · repeat' split
    all_goals rfl
  · repeat' split
    all_goals first | (left; rfl) | (right; rfl)

/-- Witness for the amended C8 at a concrete always-failing executor and a
constant translator. -/
theorem max_three_attempts_witness :
    (callShellAgent (fun _ p => ⟨p, some 1, "", "boom"⟩) (fun _ => some "x")
        (fun _ => none) "p").2 = ["p", "x", "x"] ∧
    ((callShellAgent (fun _ p => ⟨p, some 1, "", "boom"⟩) (fun _ => some "x")
        (fun _ => none) "p").1 = some ⟨"x", some 1, "", "boom"⟩ ∨
      (callShellAgent (fun _ p => ⟨p, some 1, "", "boom"⟩) (fun _ => some "x")
        (fun _ => none) "p").1 = some ⟨"x", some (-2), "", complianceStderr⟩) :=
  max_three_attempts (fun _ p => ⟨p, some 1, "", "boom"⟩) (fun _ => some "x")
    (fun _ => none) "p" "x" "x" "x" (fun _ _ => rfl) rfl (by decide) rfl (by decide)
    rfl (by decide)

/-! ### Claim C9 -/

lemma postprocessReply_stripped {r c : String} (h : postprocessReply r = some c) :
    pyStrip c = c := by
  simp only [postprocessReply] at h
  repeat' split at h
  all_goals try cases h
  all_goals exact pyStrip_idem _

lemma maybeFix_spec {c f : String} (h : maybeFixUnclosedQuotes c = some f) :
    ∃ q, (q = dquoteC ∨ q = squoteC ∨ q = bquoteC) ∧
      f = pyStrip c ++ String.mk [q] ∧ (pyStrip c).data.count q % 2 = 1 := by
  simp only [maybeFixUnclosedQuotes] at h
  by_cases h0 : (pyStrip c).isEmpty = true
  · rw [if_pos h0] at h; cases h
  · rw [if_neg h0] at h
    by_cases hd : (pyStrip c).data.count dquoteC % 2 = 1
    · rw [if_pos hd] at h
      exact ⟨dquoteC, Or.inl rfl, (Option.some.inj h).symm, hd⟩
    · rw [if_neg hd] at h
      by_cases hq : (pyStrip c).data.count squoteC % 2 = 1
      · rw [if_pos hq] at h
        exact ⟨squoteC, Or.inr (Or.inl rfl), (Option.some.inj h).symm, hq⟩
      · rw [if_neg hq] at h
        by_cases hb : (pyStrip c).data.count bquoteC % 2 = 1
        · rw [if_pos hb] at h
          exact ⟨bquoteC, Or.inr (Or.inr rfl), (Option.some.inj h).symm, hb⟩
        · rw [if_neg hb] at h; cases h

/-- C9: when the direct-detection path yields nothing and the
post-processed LLM reply is rejected by the sanitizer precisely with the
tokenizer's unterminated-quote error, the translator appends the single
missing closing quote character — the double quote, single quote or
backtick whose occurrence count in the command is odd — re-sanitizes the
repaired string once, and returns it when accepted.  The repair lives only
on the LLM-reply path: raw user input goes through `detect_direct_command`,
which performs no repair (e.g. a raw unterminated-quote command is simply
rejected). -/
theorem quote_repair (instr reply cmd fixed repaired : String)
    (hne0 : (pyStrip instr).isEmpty = false)
    (hdirect : detect_direct_command (pyStrip instr) = none)
    (hpost : postprocessReply reply = some cmd)
    (hsan : sanitizeCommandE cmd = .error (.invalidQuoting .noClosingQuotation))
    (hfix : maybeFixUnclosedQuotes cmd = some fixed)
    (hresan : sanitize_command fixed = some repaired) (hnem : repaired ≠ "") :
    translate_with_reply instr reply = some repaired ∧
    (∃ q, (q = dquoteC ∨ q = squoteC ∨ q = bquoteC) ∧
      fixed = cmd ++ String.mk [q] ∧ cmd.data.count q % 2 = 1) ∧
    detect_direct_command "echo \"unterminated" = none := by
  have hstr := postprocessReply_stripped hpost
  obtain ⟨q, hqor, hfeq, hqodd⟩ := maybeFix_spec hfix
  rw [hstr] at hfeq hqodd
  have hneq : (fixed != cmd) = true := by
    rw [bne_iff_ne]
    intro he
    have hlen := congrArg String.length he
    rw [hfeq, String.length_append] at hlen
    simp at hlen
  have hrem : repaired.isEmpty = false := by
    cases he : repaired.isEmpty with
    | false => rfl
    | true => exact absurd ((String.isEmpty_iff _).mp he) hnem
  refine ⟨?_, ⟨q, hqor, hfeq, hqodd⟩, by decide⟩
  simp only [translate_with_reply]
  rw [if_neg (by rw [hne0]; exact Bool.false_ne_true)]
  rw [hdirect]
  simp only [pyTruthy, Bool.false_eq_true, if_false]
  rw [hpost]
  simp only [hsan, Except.toOption, pyTruthy, Bool.false_eq_true, if_false]
  rw [hfix]
  simp only [hneq, if_true, hresan, pyTruthy, hrem, Bool.not_false]

/-- Witness for C9 at concrete inputs: the reply `echo "hello` is repaired
to `echo "hello"` and accepted. -/
theorem quote_repair_witness :
    translate_with_reply "list files somehow" "echo \"hello" = some "echo \"hello\"" ∧
    (∃ q, (q = dquoteC ∨ q = squoteC ∨ q = bquoteC) ∧
      ("echo \"hello\"" : String) = "echo \"hello" ++ String.mk [q] ∧
      ("echo \"hello" : String).data.count q % 2 = 1) ∧
    detect_direct_command "echo \"unterminated" = none :=
  quote_repair "list files somehow" "echo \"hello" "echo \"hello" "echo \"hello\""
    "echo \"hello\"" (by decide) (by decide) rfl rfl rfl (by decide) (by decide)

/-! ### Claim C10 -/

lemma isPrefixOf_append_self (l t : List Char) : l.isPrefixOf (l ++ t) = true := by
  induction l with
  | nil => simp [List.isPrefixOf]
  | cons c cs ih => simp [List.isPrefixOf, ih]

lemma substrAux_cons {sub y : List Char} (c : Char) (h : substrAux sub y = true) :
    substrAux sub (c :: y) = true := by
  simp [substrAux, h]

lemma substrAux_append_left {sub y : List Char} (x : List Char)
    (h : substrAux sub y = true) : substrAux sub (x ++ y) = true := by
  induction x with
  | nil => simpa using h
  | cons c cs ih => rw [List.cons_append]; exact substrAux_cons c ih

lemma substrAux_self_append (sub b : List Char) : substrAux sub (sub ++ b) = true := by
  cases sub with
  | nil => cases b <;> simp [substrAux, List.isPrefixOf]
  | cons c cs =>
    have hp := isPrefixOf_append_self (c :: cs) b
    rw [List.cons_append] at hp
    simp [substrAux, hp]

/-- C10 counterexample: stderr is never truncated — a 20000-character
stderr is rendered in full, so the render is longer than the stream and no
16000-character cap is applied to it. -/
theorem formatter_stderr_untruncated_counterexample :
    formatShellAgentOutput ⟨"c", some 0, "", bigStr⟩ =
        "Command: c\nOutput: \nError: " ++ bigStr ∧
      bigStr.length = 20000 ∧
      ("Command: c\nOutput: \nError: " ++ bigStr).length = 20027 := by
  refine ⟨rfl, ?_, ?_⟩
  · show (List.replicate 20000 'a').length = 20000
    exact List.length_replicate 20000 'a'
  · rw [String.length_append]
    have h1 : ("Command: c\nOutput: \nError: " : String).length = 27 := rfl
    have h2 : bigStr.length = 20000 := by
      show (List.replicate 20000 'a').length = 20000
      exact List.length_replicate 20000 'a'
    rw [h1, h2]

/-- C10 amended: only stdout is capped.  For every shell result whose
stdout is 20000 characters long and whose command and stderr are small
enough not to dominate, the rendered text contains the
`... (output truncated)` marker and is strictly shorter than the raw
stdout. -/
theorem formatter_stdout_truncation (r : ShellResult)
    (hlen : r.stdout.length = 20000)
    (hshort : r.command.length + r.stderr.length < 3951) :
    containsSubstr (formatShellAgentOutput r) "... (output truncated)" = true ∧
    (formatShellAgentOutput r).length < r.stdout.length := by
  have hgt : r.stdout.length > 16000 := by omega
  have hfmt : formatShellAgentOutput r =
      "Command: " ++ r.command ++ "\nOutput: " ++
        (pyTake r.stdout 16000 ++ truncationMarker) ++ "\nError: " ++ r.stderr := by
    unfold formatShellAgentOutput
    rw [if_pos hgt]
  constructor
  · rw [hfmt]
    unfold containsSubstr
    have hm2 : truncationMarker.data = '\n' :: ("... (output truncated)" : String).data := rfl
    simp only [String.data_append, List.append_assoc]
    apply substrAux_append_left
    apply substrAux_append_left
    apply substrAux_append_left
    apply substrAux_append_left
    rw [hm2, List.cons_append]
    apply substrAux_cons
    exact substrAux_self_append _ _
  · rw [hfmt]
    simp only [String.length_append]
    have htake : (pyTake r.stdout 16000).length = 16000 := by
      show (r.stdout.data.take 16000).length = 16000
      rw [List.length_take]
      have hdl : r.stdout.data.length = 20000 := hlen
      omega
    have h9 : ("Command: " : String).length = 9 := rfl
    have h8 : ("\nOutput: " : String).length = 9 := rfl
    have h7 : ("\nError: " : String).length = 8 := rfl
    have hm : truncationMarker.length = 23 := rfl
    rw [htake, h9, h8, h7, hm, hlen]
    omega

/-- Witness for the amended C10 at a concrete result with a 20000-character
stdout. -/
theorem formatter_stdout_truncation_witness :
    containsSubstr (formatShellAgentOutput ⟨"c", some 0, bigStr, ""⟩)
        "... (output truncated)" = true ∧
      (formatShellAgentOutput ⟨"c", some 0, bigStr, ""⟩).length <
        (ShellResult.mk "c" (some 0) bigStr "").stdout.length :=
  formatter_stdout_truncation ⟨"c", some 0, bigStr, ""⟩
    (by show (List.replicate 20000 'a').length = 20000
        exact List.length_replicate 20000 'a')
    (by decide)

example : shlexSplit "ls -lah | grep py" = .ok ["ls", "-lah", "|", "grep", "py"] := rfl
example : shlexSplit "echo $(reboot)" = .ok ["echo", "$(reboot)"] := rfl
example : shlexSplit "echo a\necho b" = .ok ["echo", "a", "echo", "b"] := rfl
example : shlexSplit "echo \"unterminated" = .error .noClosingQuotation := rfl
example : shlexSplit "\"ls -lah\"" = .ok ["ls -lah"] := rfl
example : sanitize_command "ls -lah" = some "ls -lah" := by decide
example : sanitize_command "sudo rm -rf /" = none := by decide
example : sanitize_command "scarycmd --flag" = none := by decide
example : sanitize_command "ls|grep" = none := by decide
example : sanitize_command "ls /" = none := by decide
example : detect_direct_command "\"ls -lah\"" = some "ls -lah" := by decide
example : detect_direct_command "\"ls -lah" = none := by decide
example : detect_direct_command (String.mk [bquoteC] ++ "ls -lah" ++ String.mk [bquoteC]) = some "ls -lah" := by decide

end SimpleAssistant
